import Mathlib

set_option maxRecDepth 4000

/-!
Verification development for the hero-record ledger program
(`src/processor.rs`, `src/instruction.rs`).

The processor is embedded shallowly: accounts become explicit structures,
the repository buffer becomes a list of bytes (each byte a `Nat`, with
range side conditions stated where they matter), and every external
cross-program invocation (token transfer, metadata update, payment
transfer) becomes an element of an explicit effect trace whose success or
failure is decided by an environment oracle `env : ExtOp → Bool`.
A failed instruction aborts the whole transaction in the host runtime, so
an `Except.error` result models an execution with no committed state
change; the error value also carries the list of external calls that had
been performed before the failure, so that ordering properties are
statable.

The files `state.rs` and `error.rs` of the repository are not available;
the definitions that come from them (`NFTRecord`, `NFT_RECORD_SIZE`,
`MAX_SLOTS`, the `InvalidNFTKey` error) are modelled from the spec and
carry a doc comment saying so.
-/

namespace Hero

/-- A 32-byte public key, modelled as a list of byte values. -/
abbrev Pubkey := List Nat

/-- A Rust string, modelled as its list of UTF-8 byte values
(UTF-8 validity is abstracted away: every value produced by the program
comes from a valid Rust string). -/
abbrev ByteStr := List Nat

/-- Modelled from the spec: the `NFTRecord` structure from the missing
`state.rs`.  Field names and order are taken from the record literal in
`process_add_record` (processor.rs lines 142-148) and from the data model
in the spec: slot id, content pointer, asset key, last sale price,
current asking price.  Machine integers are `Nat` with explicit range
conditions where they matter (`hero_id` is a `u8`, prices are `u64`). -/
structure NFTRecord where
  hero_id : Nat
  content_uri : ByteStr
  key_nft : Pubkey
  last_price : Nat
  listed_price : Nat
deriving DecidableEq

/-- Modelled from the spec: `NFT_RECORD_SIZE` from the missing `state.rs`,
the fixed serialized width of one record.  The exact constant is not in
the available sources; it is chosen as 1 (hero id byte) + 4 (string
length prefix) + 100 (content capacity) + 32 (key) + 8 + 8 (prices).
No theorem below depends on the particular value. -/
def NFT_RECORD_SIZE : Nat := 153

/-- Modelled from the spec: the repository capacity, bounded at 20 in the
reference policy. -/
def MAX_SLOTS : Nat := 20

/-- Little-endian 4-byte encoding of a `u32` value. -/
def u32le (n : Nat) : List Nat :=
  [n % 256, n / 256 % 256, n / 65536 % 256, n / 16777216 % 256]

/-- Little-endian 8-byte encoding of a `u64` value. -/
def u64le (n : Nat) : List Nat :=
  [n % 256, n / 256 % 256, n / 65536 % 256, n / 16777216 % 256,
   n / 4294967296 % 256, n / 1099511627776 % 256,
   n / 281474976710656 % 256, n / 72057594037927936 % 256]

/-- Value of a little-endian byte list. -/
def leVal : List Nat → Nat
  | [] => 0
  | b :: bs => b + 256 * leVal bs

/-- Borsh serialization of a record, in declaration order:
`u8` hero id, length-prefixed string, 32-byte key, two `u64` prices.
This is the encoding produced by the `BorshSerialize` derive used in
`processor.rs` on the field order of the record literal. -/
def encodeRecord (r : NFTRecord) : List Nat :=
  [r.hero_id % 256] ++ u32le r.content_uri.length ++ r.content_uri
    ++ r.key_nft ++ u64le r.last_price ++ u64le r.listed_price

/-- Sequential byte reader: take `n` bytes from the front of a buffer,
failing when the buffer is too short, as borsh readers do. -/
def readBytes (n : Nat) (bs : List Nat) : Option (List Nat × List Nat) :=
  if n ≤ bs.length then some (bs.take n, bs.drop n) else none

/-- Borsh deserialization of a record from a byte window.  Reads the
fields in order (one hero id byte, a `u32` length prefix, that many
string bytes, 32 key bytes, two 8-byte prices) and ignores any trailing
bytes of the window, exactly as `NFTRecord::deserialize` does on a
slice. -/
def decodeRecord (bs : List Nat) : Option NFTRecord :=
  match bs with
  | [] => none
  | h :: rest =>
    match readBytes 4 rest with
    | none => none
    | some (lenBytes, r1) =>
      match readBytes (leVal lenBytes) r1 with
      | none => none
      | some (uri, r2) =>
        match readBytes 32 r2 with
        | none => none
        | some (key, r3) =>
          match readBytes 8 r3 with
          | none => none
          | some (p1, r4) =>
            match readBytes 8 r4 with
            | none => none
            | some (p2, _) =>
              some { hero_id := h, content_uri := uri, key_nft := key,
                     last_price := leVal p1, listed_price := leVal p2 }

/-- One external cross-program invocation issued by the processor. -/
inductive ExtOp where
  /-- `spl_token::instruction::transfer`; `signedByProgram` is true for
  `invoke_signed` with the program-derived authority and false for a
  plain `invoke`, whose authority signature must come from a human signer
  of the outer transaction. -/
  | tokenTransfer (source dest authority : Pubkey) (amount : Nat)
      (signedByProgram : Bool)
  /-- `spl_token_metadata::instruction::update_metadata_accounts`. -/
  | metadataUpdate (metadataAccount updateAuthority : Pubkey)
      (newUri newName : ByteStr)
  /-- `system_instruction::transfer` of lamports. -/
  | solTransfer (source dest : Pubkey) (amount : Nat)
  /-- `spl_token::instruction::approve`, a delegate grant. -/
  | approveDelegate (tokenAccount delegate owner : Pubkey) (amount : Nat)
deriving DecidableEq

/-- Errors the embedded processor can produce.  `InvalidNFTKey` is
modelled from the spec (the `HeroError` enum lives in the missing
`error.rs`).  `SliceOutOfRange` models the Rust panic raised by an
out-of-range slice index, and `Panicked` the panic raised by `unwrap` on
a malformed metadata account; both abort the transaction just like a
returned error, so they are modelled as error values. -/
inductive ProgramError where
  | MissingRequiredSignature
  | IncorrectProgramId
  | InvalidArgument
  | InvalidAccountData
  | InvalidNFTKey
  | BorshIoError
  | SliceOutOfRange
  | Panicked
  | ExternalCallFailed (op : ExtOp)
deriving DecidableEq

/-- The content of an SPL token account, as read by
`TokenAccount::unpack_from_slice`: the holder and the mint.  This is the
ownership-oracle interface of the spec; the byte layout of the external
token program is abstracted, `none` standing for a buffer that fails to
unpack. -/
structure TokenAccountData where
  owner : Pubkey
  mint : Pubkey
deriving DecidableEq

/-- The content of a token-metadata account, as read by
`Metadata::from_account_info`; `none` in the account stands for a buffer
the external parser rejects. -/
structure MetadataData where
  mint : Pubkey
  uri : ByteStr
  name : ByteStr
deriving DecidableEq

/-- A Solana `AccountInfo`, restricted to the fields the processor
reads.  `dataBytes` is the raw data (used for the repository account);
`tokenData` and `metaData` are the parses of the data by the external
token and metadata programs, for accounts used in those roles. -/
structure AccountInfo where
  key : Pubkey := []
  is_signer : Bool := false
  owner : Pubkey := []
  dataBytes : List Nat := []
  tokenData : Option TokenAccountData := none
  metaData : Option MetadataData := none
deriving DecidableEq

/-- `fetch nft data from repository account with hero_id`
(processor.rs lines 349-365).  The slice `[start..end]` panics when out
of range (modelled as `SliceOutOfRange`); deserialization failure is a
borsh error; a stored key differing from either supplied key is
`InvalidNFTKey`. -/
def get_nft_data_from_repository (hero_id : Nat) (key_nft : Pubkey)
    (repo : List Nat) (nft_account_key : Pubkey) :
    Except ProgramError NFTRecord :=
  if hero_id * NFT_RECORD_SIZE + NFT_RECORD_SIZE ≤ repo.length then
    match decodeRecord ((repo.drop (hero_id * NFT_RECORD_SIZE)).take
        NFT_RECORD_SIZE) with
    | none => .error .BorshIoError
    | some nft_record =>
      if nft_record.key_nft ≠ key_nft ∨ nft_record.key_nft ≠ nft_account_key
      then .error .InvalidNFTKey
      else .ok nft_record
  else .error .SliceOutOfRange

/-- `modify nft data to repository` (processor.rs lines 368-376).
The slice `[start..end]` panics when out of range (`SliceOutOfRange`);
borsh serialization into the fixed window fails when the record is wider
than the window (`BorshIoError`); otherwise the encoded bytes replace the
start of the window and the rest of the buffer is untouched.  In the Rust
code a serialization failure can leave partially written bytes, but the
failed instruction is rolled back by the runtime, so the model returns
the unchanged buffer semantics via an error. -/
def save_nft_data_to_repository (nft_record : NFTRecord)
    (repo : List Nat) : Except ProgramError (List Nat) :=
  if nft_record.hero_id * NFT_RECORD_SIZE + NFT_RECORD_SIZE
      ≤ repo.length then
    if (encodeRecord nft_record).length ≤ NFT_RECORD_SIZE then
      .ok (repo.take (nft_record.hero_id * NFT_RECORD_SIZE)
        ++ encodeRecord nft_record
        ++ repo.drop (nft_record.hero_id * NFT_RECORD_SIZE
              + (encodeRecord nft_record).length))
    else .error .BorshIoError
  else .error .SliceOutOfRange

/-- `AddRecordArgs` (processor.rs lines 30-37).  In Rust `key_nft` is a
base58 string decoded with `Pubkey::from_str`; the decoding is an
out-of-scope serialization layer per the spec, so the field is modelled
as the decoded key. -/
structure AddRecordArgs where
  hero_id : Nat
  content_uri : ByteStr
  key_nft : Pubkey
  last_price : Nat
  listed_price : Nat
deriving DecidableEq

/-- `UpdateRecordArgs` (processor.rs lines 39-45). -/
structure UpdateRecordArgs where
  hero_id : Nat
  key_nft : Pubkey
  new_price : Nat
  content_uri : ByteStr
deriving DecidableEq

/-- `BuyRecordArgs` (processor.rs lines 47-52). -/
structure BuyRecordArgs where
  hero_id : Nat
  dead_uri : ByteStr
  dead_name : ByteStr
deriving DecidableEq

/-- The accounts consumed by `process_add_record`, in the order of its
`next_account_info` calls. -/
structure AddAccounts where
  adder_account : AccountInfo
  repository_account : AccountInfo
  associated_token_account : AccountInfo
  pda_account : AccountInfo
  token_program : AccountInfo

/-- The accounts consumed by `process_update_record`, in order. -/
structure UpdateAccounts where
  setter_account : AccountInfo
  repository_account : AccountInfo
  nft_account : AccountInfo
  associated_token_account : AccountInfo

/-- The accounts consumed by `process_buy_record`, in order. -/
structure BuyAccounts where
  admin_account : AccountInfo
  buyer_account : AccountInfo
  prev_owner_account : AccountInfo
  repository_account : AccountInfo
  old_nft_mint : AccountInfo
  old_nft_token_account : AccountInfo
  old_nft_metadata_account : AccountInfo
  new_nft_mint : AccountInfo
  nft_token_account_to_send : AccountInfo
  nft_token_account_to_receive : AccountInfo
  token_program : AccountInfo
  token_metadata_program : AccountInfo
  system_program_account : AccountInfo

/-- Oracle deciding whether an external cross-program invocation
succeeds. -/
abbrev Env := ExtOp → Bool

/-- Result of one instruction: on success the new repository bytes and
the trace of performed external calls, on failure the error together
with the external calls performed before the failure (the runtime rolls
back all state on failure). -/
abbrev ProcResult := Except (ProgramError × List ExtOp) (List Nat × List ExtOp)

/-- True iff an instruction result is a success. -/
def procOk : ProcResult → Bool
  | .ok _ => true
  | .error _ => false

/-- The trace of external calls performed during an instruction, whether
it succeeded or failed. -/
def procOps : ProcResult → List ExtOp
  | .ok (_, ops) => ops
  | .error (_, ops) => ops

/-- True iff a repository read succeeded. -/
def getOk : Except ProgramError NFTRecord → Bool
  | .ok _ => true
  | .error _ => false

/-- `process_add_record` (processor.rs lines 88-152).  The delegate
`approve` call of the design is commented out in the source (lines
121-140), so the execution issues no external call at all: it checks the
signer, checks the repository owner, builds the record from the
arguments and saves it. -/
def process_add_record (accs : AddAccounts) (args : AddRecordArgs)
    (program_id : Pubkey) : ProcResult :=
  if !accs.adder_account.is_signer then
    .error (.MissingRequiredSignature, [])
  else if accs.repository_account.owner ≠ program_id then
    .error (.IncorrectProgramId, [])
  else
    let nft_record : NFTRecord :=
      { hero_id := args.hero_id
        content_uri := args.content_uri
        key_nft := args.key_nft
        last_price := args.last_price
        listed_price := args.listed_price }
    match save_nft_data_to_repository nft_record
        accs.repository_account.dataBytes with
    | .error e => .error (e, [])
    | .ok repo2 => .ok (repo2, [])

/-- `process_update_record` (processor.rs lines 159-221).  Checks the
signer and the repository owner, reads the holder and mint from the
associated token account (the ownership oracle), loads the record for
`args.hero_id` comparing its stored key against the mint account key
(the `unwrap` on a failed load panics, aborting the instruction, which
the model expresses by propagating the error), sets the listed price and
content uri, and saves the record back.  No external call is issued. -/
def process_update_record (accs : UpdateAccounts) (args : UpdateRecordArgs)
    (program_id : Pubkey) : ProcResult :=
  if !accs.setter_account.is_signer then
    .error (.MissingRequiredSignature, [])
  else if accs.repository_account.owner ≠ program_id then
    .error (.IncorrectProgramId, [])
  else
    match accs.associated_token_account.tokenData with
    | none => .error (.InvalidAccountData, [])
    | some token_account_info =>
      if token_account_info.owner ≠ accs.setter_account.key
          ∨ token_account_info.mint ≠ accs.nft_account.key then
        .error (.InvalidArgument, [])
      else
        match get_nft_data_from_repository args.hero_id
            accs.nft_account.key accs.repository_account.dataBytes
            accs.nft_account.key with
        | .error e => .error (e, [])
        | .ok nft_record =>
          let nft_record2 :=
            { nft_record with
                listed_price := args.new_price
                content_uri := args.content_uri }
          match save_nft_data_to_repository nft_record2
              accs.repository_account.dataBytes with
          | .error e => .error (e, [])
          | .ok repo2 => .ok (repo2, [])

/-- `update_metadata_old_nft` (processor.rs lines 380-415): the
metadata-retirement step of the buy path.  A malformed metadata account
makes `Metadata::from_account_info(..).unwrap()` panic; then the account
owner and mint are validated, and the metadata update instruction is
invoked with the admin account as update authority. -/
def update_metadata_old_nft (env : Env)
    (admin_account old_nft_mint old_nft_metadata_account
      token_metadata_program : AccountInfo) (args : BuyRecordArgs) :
    Except ProgramError ExtOp :=
  match old_nft_metadata_account.metaData with
  | none => .error .Panicked
  | some old_metadata =>
    if old_nft_metadata_account.owner ≠ token_metadata_program.key
        ∨ old_metadata.mint ≠ old_nft_mint.key then
      .error .InvalidAccountData
    else
      let op := ExtOp.metadataUpdate old_nft_metadata_account.key
        admin_account.key args.dead_uri args.dead_name
      if env op then .ok op else .error (.ExternalCallFailed op)

/-- `sol_transfer` (processor.rs lines 338-346): the payment transfer
from buyer to previous owner through the system program. -/
def sol_transfer (env : Env) (source destination : AccountInfo)
    (amount : Nat) : Except ProgramError ExtOp :=
  let op := ExtOp.solTransfer source.key destination.key amount
  if env op then .ok op else .error (.ExternalCallFailed op)

/-- `process_buy_record` (processor.rs lines 230-335).  In source order:
buyer signer check, repository owner check, previous-holder verification
through the old token account, the token transfer (authorized by the
admin account through a plain `invoke`, so `signedByProgram` is false;
source and destination are the designated send and receive token
accounts; amount 1), the metadata retirement, the record load
(`unwrap`), the record update (`last_price` becomes the listed price and
the key is rebound to the new mint) and save, and finally the payment
transfer of the listed price from buyer to previous owner. -/
def process_buy_record (env : Env) (accs : BuyAccounts)
    (args : BuyRecordArgs) (program_id : Pubkey) : ProcResult :=
  if !accs.buyer_account.is_signer then
    .error (.MissingRequiredSignature, [])
  else if accs.repository_account.owner ≠ program_id then
    .error (.IncorrectProgramId, [])
  else
    match accs.old_nft_token_account.tokenData with
    | none => .error (.InvalidAccountData, [])
    | some token_account_info =>
      if token_account_info.owner ≠ accs.prev_owner_account.key
          ∨ token_account_info.mint ≠ accs.old_nft_mint.key then
        .error (.InvalidArgument, [])
      else
        let transfer_op := ExtOp.tokenTransfer
          accs.nft_token_account_to_send.key
          accs.nft_token_account_to_receive.key
          accs.admin_account.key 1 false
        if !env transfer_op then
          .error (.ExternalCallFailed transfer_op, [])
        else
          match update_metadata_old_nft env accs.admin_account
              accs.old_nft_mint accs.old_nft_metadata_account
              accs.token_metadata_program args with
          | .error e => .error (e, [transfer_op])
          | .ok meta_op =>
            match get_nft_data_from_repository args.hero_id
                accs.old_nft_mint.key accs.repository_account.dataBytes
                accs.old_nft_mint.key with
            | .error e => .error (e, [transfer_op, meta_op])
            | .ok nft_record =>
              let nft_record2 :=
                { nft_record with
                    last_price := nft_record.listed_price
                    key_nft := accs.new_nft_mint.key }
              match save_nft_data_to_repository nft_record2
                  accs.repository_account.dataBytes with
              | .error e => .error (e, [transfer_op, meta_op])
              | .ok repo2 =>
                match sol_transfer env accs.buyer_account
                    accs.prev_owner_account nft_record2.listed_price with
                | .error e => .error (e, [transfer_op, meta_op])
                | .ok sol_op => .ok (repo2, [transfer_op, meta_op, sol_op])

/-- Well-formedness of a record as the image of the Rust types: the hero
id is a `u8`, the key has 32 bytes, the prices are `u64` values. -/
def RecordWF (r : NFTRecord) : Prop :=
  r.hero_id < 256 ∧ r.key_nft.length = 32
    ∧ r.last_price < 18446744073709551616
    ∧ r.listed_price < 18446744073709551616

instance (r : NFTRecord) : Decidable (RecordWF r) := by
  unfold RecordWF; infer_instance

/-- All entries of a buffer are byte values. -/
def BytesWF (bs : List Nat) : Prop := ∀ b ∈ bs, b < 256

instance (bs : List Nat) : Decidable (BytesWF bs) := by
  unfold BytesWF; infer_instance

theorem leVal_u32le (n : Nat) (h : n < 4294967296) :
    leVal (u32le n) = n := by
  simp [u32le, leVal]; omega

theorem leVal_u64le (n : Nat) (h : n < 18446744073709551616) :
    leVal (u64le n) = n := by
  simp [u64le, leVal]; omega

theorem leVal_lt (bs : List Nat) (h : ∀ b ∈ bs, b < 256) :
    leVal bs < 256 ^ bs.length := by
  induction bs with
  | nil => simp [leVal]
  | cons b bs ih =>
    have hb : b < 256 := h b (by simp)
    have ht := ih (fun x hx => h x (by simp [hx]))
    simp only [leVal, List.length_cons, pow_succ]
    calc b + 256 * leVal bs < 256 + 256 * leVal bs := by omega
      _ ≤ 256 * (leVal bs + 1) := by ring_nf; omega
      _ ≤ 256 * 256 ^ bs.length := by
          have : leVal bs + 1 ≤ 256 ^ bs.length := ht
          exact Nat.mul_le_mul_left 256 this
      _ = 256 ^ bs.length * 256 := by ring

theorem readBytes_append (n : Nat) (l₁ l₂ : List Nat)
    (h : l₁.length = n) : readBytes n (l₁ ++ l₂) = some (l₁, l₂) := by
  subst h
  simp [readBytes, List.take_left, List.drop_left]

theorem encodeRecord_length (r : NFTRecord) :
    (encodeRecord r).length
      = 21 + r.content_uri.length + r.key_nft.length := by
  simp [encodeRecord, u32le, u64le]; ring

/-- Decoding reverses encoding, for records of the Rust value range,
regardless of the bytes following the encoded record in the window. -/
theorem decodeRecord_encodeRecord (r : NFTRecord) (tail : List Nat)
    (hWF : RecordWF r) (h5 : r.content_uri.length < 4294967296) :
    decodeRecord (encodeRecord r ++ tail) = some r := by
  obtain ⟨h1, h2, h3, h4⟩ := hWF
  obtain ⟨hid, uri, key, lastp, listedp⟩ := r
  simp only at h1 h2 h3 h4 h5
  have e1 : encodeRecord ⟨hid, uri, key, lastp, listedp⟩ ++ tail
      = (hid % 256)
        :: (u32le uri.length
          ++ (uri ++ (key ++ (u64le lastp ++ (u64le listedp ++ tail))))) := by
    simp [encodeRecord]
  rw [e1]
  show decodeRecord _ = _
  rw [decodeRecord]
  rw [readBytes_append 4 (u32le uri.length) _ rfl]
  dsimp only
  rw [leVal_u32le uri.length h5]
  rw [readBytes_append uri.length uri _ rfl]
  dsimp only
  rw [readBytes_append 32 key _ h2]
  dsimp only
  rw [readBytes_append 8 (u64le lastp) _ rfl]
  dsimp only
  rw [readBytes_append 8 (u64le listedp) _ rfl]
  dsimp only
  rw [leVal_u64le lastp h3, leVal_u64le listedp h4]
  simp [Nat.mod_eq_of_lt h1]

/-- Inversion of a successful repository write. -/
theorem save_ok_inv (r : NFTRecord) (repo repo2 : List Nat)
    (h : save_nft_data_to_repository r repo = .ok repo2) :
    r.hero_id * NFT_RECORD_SIZE + NFT_RECORD_SIZE ≤ repo.length
    ∧ (encodeRecord r).length ≤ NFT_RECORD_SIZE
    ∧ repo2 = repo.take (r.hero_id * NFT_RECORD_SIZE)
        ++ encodeRecord r
        ++ repo.drop (r.hero_id * NFT_RECORD_SIZE
              + (encodeRecord r).length) := by
  unfold save_nft_data_to_repository at h
  split at h
  · split at h
    · simp only [Except.ok.injEq] at h
      refine ⟨by assumption, by assumption, h.symm⟩
    · cases h
  · cases h

/-- A successful write preserves the buffer length. -/
theorem save_ok_length (r : NFTRecord) (repo repo2 : List Nat)
    (h : save_nft_data_to_repository r repo = .ok repo2) :
    repo2.length = repo.length := by
  obtain ⟨hb, he, hrepo⟩ := save_ok_inv r repo repo2 h
  subst hrepo
  simp only [List.length_append, List.length_take, List.length_drop]
  omega

/-- Reading a slot just written with the asset key of the written record
returns the written record unchanged. -/
theorem get_after_save (r : NFTRecord) (repo repo2 : List Nat)
    (hWF : RecordWF r)
    (h : save_nft_data_to_repository r repo = .ok repo2) :
    get_nft_data_from_repository r.hero_id r.key_nft repo2 r.key_nft
      = .ok r := by
  obtain ⟨hb, he, hrepo⟩ := save_ok_inv r repo repo2 h
  have hlen : repo2.length = repo.length := save_ok_length r repo repo2 h
  have hel : (encodeRecord r).length = 21 + r.content_uri.length
      + r.key_nft.length := encodeRecord_length r
  have huri : r.content_uri.length < 4294967296 := by
    have h32 : r.key_nft.length = 32 := hWF.2.1
    simp only [NFT_RECORD_SIZE] at he
    omega
  have htk : (repo.take (r.hero_id * NFT_RECORD_SIZE)).length
      = r.hero_id * NFT_RECORD_SIZE := by
    simp only [List.length_take]
    omega
  have hdrop : repo2.drop (r.hero_id * NFT_RECORD_SIZE)
      = encodeRecord r
        ++ repo.drop (r.hero_id * NFT_RECORD_SIZE
              + (encodeRecord r).length) := by
    rw [hrepo, List.append_assoc]
    exact List.drop_left' htk
  have hwindow : (repo2.drop (r.hero_id * NFT_RECORD_SIZE)).take
      NFT_RECORD_SIZE
      = encodeRecord r
        ++ (repo.drop (r.hero_id * NFT_RECORD_SIZE
              + (encodeRecord r).length)).take
            (NFT_RECORD_SIZE - (encodeRecord r).length) := by
    rw [hdrop, List.take_append_eq_append_take,
        List.take_of_length_le he]
  unfold get_nft_data_from_repository
  rw [if_pos (by omega :
    r.hero_id * NFT_RECORD_SIZE + NFT_RECORD_SIZE ≤ repo2.length)]
  rw [hwindow, decodeRecord_encodeRecord r _ hWF huri]
  simp

theorem readBytes_some_inv (n : Nat) (bs a b : List Nat)
    (h : readBytes n bs = some (a, b)) :
    a = bs.take n ∧ b = bs.drop n ∧ n ≤ bs.length := by
  unfold readBytes at h
  split at h
  · simp only [Option.some.injEq, Prod.mk.injEq] at h
    exact ⟨h.1.symm, h.2.symm, by assumption⟩
  · cases h

/-- Any record produced by decoding a buffer of byte values is in the
Rust value range. -/
theorem decodeRecord_wf (bs : List Nat) (r : NFTRecord)
    (hb : ∀ x ∈ bs, x < 256) (h : decodeRecord bs = some r) :
    RecordWF r := by
  cases bs with
  | nil => simp [decodeRecord] at h
  | cons hd rest =>
    rw [decodeRecord] at h
    split at h
    · cases h
    next lenBytes r1 h1 =>
      split at h
      · cases h
      next uri r2 hu =>
        split at h
        · cases h
        next key r3 hk =>
          split at h
          · cases h
          next p1 r4 hp1 =>
            split at h
            · cases h
            next p2 r5 hp2 =>
              simp only [Option.some.injEq] at h
              obtain ⟨e1, e1l, e1b⟩ := readBytes_some_inv _ _ _ _ h1
              obtain ⟨e2, e2l, e2b⟩ := readBytes_some_inv _ _ _ _ hu
              obtain ⟨e3, e3l, e3b⟩ := readBytes_some_inv _ _ _ _ hk
              obtain ⟨e4, e4l, e4b⟩ := readBytes_some_inv _ _ _ _ hp1
              obtain ⟨e5, e5l, e5b⟩ := readBytes_some_inv _ _ _ _ hp2
              have hrest : ∀ x ∈ rest, x < 256 := by
                intro x hx
                exact hb x (by simp [hx])
              have hr1 : ∀ x ∈ r1, x < 256 := by
                intro x hx
                exact hrest x (List.drop_subset _ _ (e1l ▸ hx))
              have hr2 : ∀ x ∈ r2, x < 256 := by
                intro x hx
                exact hr1 x (List.drop_subset _ _ (e2l ▸ hx))
              have hr3 : ∀ x ∈ r3, x < 256 := by
                intro x hx
                exact hr2 x (List.drop_subset _ _ (e3l ▸ hx))
              have hr4 : ∀ x ∈ r4, x < 256 := by
                intro x hx
                exact hr3 x (List.drop_subset _ _ (e4l ▸ hx))
              have hkey : key.length = 32 := by
                rw [e3, List.length_take]
                omega
              have hp1l : p1.length = 8 := by
                rw [e4, List.length_take]
                omega
              have hp2l : p2.length = 8 := by
                rw [e5, List.length_take]
                omega
              have hp1b : ∀ x ∈ p1, x < 256 := by
                intro x hx
                exact hr3 x (List.take_subset _ _ (e4 ▸ hx))
              have hp2b : ∀ x ∈ p2, x < 256 := by
                intro x hx
                exact hr4 x (List.take_subset _ _ (e5 ▸ hx))
              have hv1 : leVal p1 < 18446744073709551616 := by
                have := leVal_lt p1 hp1b
                rw [hp1l] at this
                norm_num at this
                exact this
              have hv2 : leVal p2 < 18446744073709551616 := by
                have := leVal_lt p2 hp2b
                rw [hp2l] at this
                norm_num at this
                exact this
              have hhd : hd < 256 := hb hd (by simp)
              subst h
              exact ⟨hhd, hkey, hv1, hv2⟩

/-- A successful repository read returns a record whose stored key
equals both supplied keys. -/
theorem get_ok_key_eq (hero_id : Nat) (key_nft : Pubkey)
    (repo : List Nat) (nft_account_key : Pubkey) (r : NFTRecord)
    (h : get_nft_data_from_repository hero_id key_nft repo nft_account_key
      = .ok r) :
    r.key_nft = key_nft ∧ r.key_nft = nft_account_key := by
  unfold get_nft_data_from_repository at h
  split at h
  · split at h
    · cases h
    · split at h
      · cases h
      next hne =>
        push_neg at hne
        simp only [Except.ok.injEq] at h
        subst h
        exact hne
  · cases h

/-- A successful repository read of a byte-valued buffer returns a
record in the Rust value range. -/
theorem get_ok_wf (hero_id : Nat) (key_nft : Pubkey)
    (repo : List Nat) (nft_account_key : Pubkey) (r : NFTRecord)
    (hbytes : BytesWF repo)
    (h : get_nft_data_from_repository hero_id key_nft repo nft_account_key
      = .ok r) :
    RecordWF r := by
  unfold get_nft_data_from_repository at h
  split at h
  · split at h
    · cases h
    next hdec =>
      split at h
      · cases h
      · simp only [Except.ok.injEq] at h
        subst h
        refine decodeRecord_wf _ _ ?_ hdec
        intro x hx
        exact hbytes x
          (List.drop_subset _ _ (List.take_subset _ _ hx))
  · cases h

/-- Inversion of a successful `process_add_record`. -/
theorem process_add_ok_inv (accs : AddAccounts) (args : AddRecordArgs)
    (pid : Pubkey) (repo2 : List Nat) (ops : List ExtOp)
    (h : process_add_record accs args pid = .ok (repo2, ops)) :
    accs.adder_account.is_signer = true
    ∧ accs.repository_account.owner = pid
    ∧ save_nft_data_to_repository
        { hero_id := args.hero_id, content_uri := args.content_uri,
          key_nft := args.key_nft, last_price := args.last_price,
          listed_price := args.listed_price }
        accs.repository_account.dataBytes = .ok repo2
    ∧ ops = [] := by
  unfold process_add_record at h
  dsimp only at h
  split at h
  · cases h
  next hsig =>
    split at h
    · cases h
    next hown =>
      split at h
      · cases h
      next repo3 heq =>
        simp only [Except.ok.injEq, Prod.mk.injEq] at h
        obtain ⟨h1, h2⟩ := h
        refine ⟨?_, ?_, ?_, h2.symm⟩
        · simp only [Bool.not_eq_true'] at hsig
          simpa using hsig
        · simpa using hown
        · rw [heq, h1]

/-- Inversion of a successful `process_update_record`. -/
theorem process_update_ok_inv (accs : UpdateAccounts)
    (args : UpdateRecordArgs) (pid : Pubkey) (repo2 : List Nat)
    (ops : List ExtOp)
    (h : process_update_record accs args pid = .ok (repo2, ops)) :
    accs.setter_account.is_signer = true
    ∧ accs.repository_account.owner = pid
    ∧ (∃ td, accs.associated_token_account.tokenData = some td
        ∧ td.owner = accs.setter_account.key
        ∧ td.mint = accs.nft_account.key)
    ∧ ∃ r, get_nft_data_from_repository args.hero_id
          accs.nft_account.key accs.repository_account.dataBytes
          accs.nft_account.key = .ok r
        ∧ save_nft_data_to_repository
            { r with listed_price := args.new_price,
                     content_uri := args.content_uri }
            accs.repository_account.dataBytes = .ok repo2
        ∧ ops = [] := by
  unfold process_update_record at h
  dsimp only at h
  split at h
  · cases h
  next hsig =>
    split at h
    · cases h
    next hown =>
      split at h
      · cases h
      next td htd =>
        split at h
        · cases h
        next hmatch =>
          push_neg at hmatch
          split at h
          · cases h
          next r hget =>
            split at h
            · cases h
            next repo3 hsave =>
              simp only [Except.ok.injEq, Prod.mk.injEq] at h
              obtain ⟨h1, h2⟩ := h
              refine ⟨?_, ?_, ⟨td, htd, hmatch.1, hmatch.2⟩,
                r, hget, ?_, h2.symm⟩
              · simp only [Bool.not_eq_true'] at hsig
                simpa using hsig
              · simpa using hown
              · rw [hsave, h1]

/-- Inversion of a successful `update_metadata_old_nft`. -/
theorem update_metadata_ok_inv (env : Env)
    (admin_account old_nft_mint old_nft_metadata_account
      token_metadata_program : AccountInfo) (args : BuyRecordArgs)
    (op : ExtOp)
    (h : update_metadata_old_nft env admin_account old_nft_mint
      old_nft_metadata_account token_metadata_program args = .ok op) :
    op = ExtOp.metadataUpdate old_nft_metadata_account.key
      admin_account.key args.dead_uri args.dead_name := by
  unfold update_metadata_old_nft at h
  dsimp only at h
  split at h
  · cases h
  · split at h
    · cases h
    · split at h
      · simp only [Except.ok.injEq] at h
        exact h.symm
      · cases h

/-- Inversion of a successful `sol_transfer`. -/
theorem sol_transfer_ok_inv (env : Env) (source destination : AccountInfo)
    (amount : Nat) (op : ExtOp)
    (h : sol_transfer env source destination amount = .ok op) :
    op = ExtOp.solTransfer source.key destination.key amount := by
  unfold sol_transfer at h
  dsimp only at h
  split at h
  · simp only [Except.ok.injEq] at h
    exact h.symm
  · cases h

/-- Inversion of a successful `process_buy_record`. -/
theorem process_buy_ok_inv (env : Env) (accs : BuyAccounts)
    (args : BuyRecordArgs) (pid : Pubkey) (repo2 : List Nat)
    (ops : List ExtOp)
    (h : process_buy_record env accs args pid = .ok (repo2, ops)) :
    accs.buyer_account.is_signer = true
    ∧ accs.repository_account.owner = pid
    ∧ (∃ td, accs.old_nft_token_account.tokenData = some td
        ∧ td.owner = accs.prev_owner_account.key
        ∧ td.mint = accs.old_nft_mint.key)
    ∧ ∃ r, get_nft_data_from_repository args.hero_id
          accs.old_nft_mint.key accs.repository_account.dataBytes
          accs.old_nft_mint.key = .ok r
        ∧ save_nft_data_to_repository
            { r with last_price := r.listed_price,
                     key_nft := accs.new_nft_mint.key }
            accs.repository_account.dataBytes = .ok repo2
        ∧ ops = [ExtOp.tokenTransfer accs.nft_token_account_to_send.key
                   accs.nft_token_account_to_receive.key
                   accs.admin_account.key 1 false,
                 ExtOp.metadataUpdate accs.old_nft_metadata_account.key
                   accs.admin_account.key args.dead_uri args.dead_name,
                 ExtOp.solTransfer accs.buyer_account.key
                   accs.prev_owner_account.key r.listed_price] := by
  unfold process_buy_record at h
  dsimp only at h
  split at h
  · cases h
  next hsig =>
    split at h
    · cases h
    next hown =>
      split at h
      · cases h
      next td htd =>
        split at h
        · cases h
        next hmatch =>
          push_neg at hmatch
          split at h
          · cases h
          next henv =>
            split at h
            · cases h
            next meta_op hmeta =>
              split at h
              · cases h
              next r hget =>
                split at h
                · cases h
                next repo3 hsave =>
                  split at h
                  · cases h
                  next sol_op hsol =>
                    simp only [Except.ok.injEq, Prod.mk.injEq] at h
                    obtain ⟨h1, h2⟩ := h
                    have hm := update_metadata_ok_inv _ _ _ _ _ _ _ hmeta
                    have hs := sol_transfer_ok_inv _ _ _ _ _ hsol
                    refine ⟨?_, ?_, ⟨td, htd, hmatch.1, hmatch.2⟩,
                      r, hget, ?_, ?_⟩
                    · simp only [Bool.not_eq_true'] at hsig
                      simpa using hsig
                    · simpa using hown
                    · rw [hsave, h1]
                    · rw [← h2, hm, hs]

instance {e a : Type} [DecidableEq e] [DecidableEq a] :
    DecidableEq (Except e a) := fun x y =>
  match x, y with
  | .ok u, .ok v =>
    if h : u = v then isTrue (by rw [h])
    else isFalse (fun hc => by cases hc; exact h rfl)
  | .error u, .error v =>
    if h : u = v then isTrue (by rw [h])
    else isFalse (fun hc => by cases hc; exact h rfl)
  | .ok _, .error _ => isFalse (fun hc => by cases hc)
  | .error _, .ok _ => isFalse (fun hc => by cases hc)

/-- Writing to a slot at or past the end of the buffer hits the
out-of-range slice. -/
theorem save_oob (r : NFTRecord) (repo : List Nat)
    (h1 : MAX_SLOTS ≤ r.hero_id)
    (h2 : repo.length = MAX_SLOTS * NFT_RECORD_SIZE) :
    save_nft_data_to_repository r repo = .error .SliceOutOfRange := by
  have hc : ¬ (r.hero_id * NFT_RECORD_SIZE + NFT_RECORD_SIZE
      ≤ repo.length) := by
    simp only [MAX_SLOTS, NFT_RECORD_SIZE] at h1 h2 ⊢
    omega
  unfold save_nft_data_to_repository
  rw [if_neg hc]

/-- Reading a slot at or past the end of the buffer hits the
out-of-range slice. -/
theorem get_oob (hero_id : Nat) (key_nft : Pubkey) (repo : List Nat)
    (nft_account_key : Pubkey) (h1 : MAX_SLOTS ≤ hero_id)
    (h2 : repo.length = MAX_SLOTS * NFT_RECORD_SIZE) :
    get_nft_data_from_repository hero_id key_nft repo nft_account_key
      = .error .SliceOutOfRange := by
  have hc : ¬ (hero_id * NFT_RECORD_SIZE + NFT_RECORD_SIZE
      ≤ repo.length) := by
    simp only [MAX_SLOTS, NFT_RECORD_SIZE] at h1 h2 ⊢
    omega
  unfold get_nft_data_from_repository
  rw [if_neg hc]

/-- Recognizer for asset-transfer operations in an effect trace. -/
def isTokenTransfer : ExtOp → Bool
  | .tokenTransfer _ _ _ _ _ => true
  | _ => false

/- Concrete scenario data used by the evaluation theorems and
witnesses. -/

def pkOf (b : Nat) : Pubkey := List.replicate 32 b

def progIdEx : Pubkey := pkOf 9

def mintKeyA : Pubkey := pkOf 7

def newMintKey : Pubkey := pkOf 8

def adminKey : Pubkey := pkOf 1

def buyerKey : Pubkey := pkOf 2

def prevKey : Pubkey := pkOf 3

def setterKey : Pubkey := pkOf 4

def sendTokKey : Pubkey := pkOf 5

def recvTokKey : Pubkey := pkOf 6

def oldTokKey : Pubkey := pkOf 10

def mdKey : Pubkey := pkOf 11

def tmProgKey : Pubkey := pkOf 12

/-- The example record of the spec scenario: slot 0, asset `mintKeyA`,
last price 100, listed price 150. -/
def rEx : NFTRecord :=
  { hero_id := 0, content_uri := [104, 105], key_nft := mintKeyA,
    last_price := 100, listed_price := 150 }

def repoEmpty : List Nat := List.replicate 153 0

/-- The repository buffer holding `rEx` at slot 0. -/
def repoWithR : List Nat := encodeRecord rEx ++ List.replicate 98 0

def addAccsEx : AddAccounts :=
  { adder_account := { key := adminKey, is_signer := true }
    repository_account :=
      { key := pkOf 13, owner := progIdEx, dataBytes := repoEmpty }
    associated_token_account := {}
    pda_account := {}
    token_program := {} }

def addArgsEx : AddRecordArgs :=
  { hero_id := 0, content_uri := [104, 105], key_nft := mintKeyA,
    last_price := 100, listed_price := 150 }

def updAccsEx : UpdateAccounts :=
  { setter_account := { key := setterKey, is_signer := true }
    repository_account :=
      { key := pkOf 13, owner := progIdEx, dataBytes := repoWithR }
    nft_account := { key := mintKeyA }
    associated_token_account :=
      { tokenData := some { owner := setterKey, mint := mintKeyA } } }

def updArgsEx : UpdateRecordArgs :=
  { hero_id := 0, key_nft := pkOf 14, new_price := 200,
    content_uri := [106] }

def buyAccsEx : BuyAccounts :=
  { admin_account := { key := adminKey }
    buyer_account := { key := buyerKey, is_signer := true }
    prev_owner_account := { key := prevKey }
    repository_account :=
      { key := pkOf 13, owner := progIdEx, dataBytes := repoWithR }
    old_nft_mint := { key := mintKeyA }
    old_nft_token_account :=
      { key := oldTokKey,
        tokenData := some { owner := prevKey, mint := mintKeyA } }
    old_nft_metadata_account :=
      { key := mdKey, owner := tmProgKey,
        metaData := some { mint := mintKeyA, uri := [111], name := [110] } }
    new_nft_mint := { key := newMintKey }
    nft_token_account_to_send := { key := sendTokKey }
    nft_token_account_to_receive := { key := recvTokKey }
    token_program := { key := pkOf 15 }
    token_metadata_program := { key := tmProgKey }
    system_program_account := { key := pkOf 16 } }

def buyArgsEx : BuyRecordArgs :=
  { hero_id := 0, dead_uri := [100], dead_name := [110] }

/-- Environment in which every external call succeeds. -/
def envAll : Env := fun _ => true

/-- The record after the example buy: last price settled to 150 and the
key rebound to the new mint. -/
def rExAfterBuy : NFTRecord :=
  { hero_id := 0
    content_uri := [104, 105]
    key_nft := newMintKey
    last_price := 150
    listed_price := 150 }

/-- The repository buffer after the example buy. -/
def repoAfterBuy : List Nat :=
  encodeRecord rExAfterBuy ++ List.replicate 98 0

/-- The record after the example update: listed price 200 and content
uri `[106]`. -/
def rExAfterUpd : NFTRecord :=
  { hero_id := 0
    content_uri := [106]
    key_nft := mintKeyA
    last_price := 100
    listed_price := 200 }

/-- The repository buffer after the example update. -/
def repoAfterUpd : List Nat :=
  encodeRecord rExAfterUpd ++ List.replicate 99 0

/-- The external-call trace of the example buy. -/
def opsBuyEx : List ExtOp :=
  [ExtOp.tokenTransfer sendTokKey recvTokKey adminKey 1 false,
   ExtOp.metadataUpdate mdKey adminKey [100] [110],
   ExtOp.solTransfer buyerKey prevKey 150]

def repoFull : List Nat := List.replicate 3060 0

def rEx20 : NFTRecord :=
  { hero_id := 20, content_uri := [104], key_nft := mintKeyA,
    last_price := 1, listed_price := 2 }

def addArgsOob : AddRecordArgs := { addArgsEx with hero_id := 20 }

def updArgsOob : UpdateRecordArgs := { updArgsEx with hero_id := 20 }

def buyArgsOob : BuyRecordArgs := { buyArgsEx with hero_id := 20 }

def addAccsOob : AddAccounts :=
  { addAccsEx with repository_account :=
      { key := pkOf 13, owner := progIdEx, dataBytes := repoFull } }

def updAccsOob : UpdateAccounts :=
  { updAccsEx with repository_account :=
      { key := pkOf 13, owner := progIdEx, dataBytes := repoFull } }

def buyAccsOob : BuyAccounts :=
  { buyAccsEx with repository_account :=
      { key := pkOf 13, owner := progIdEx, dataBytes := repoFull } }

def addAccsNoSig : AddAccounts :=
  { addAccsEx with adder_account :=
      { key := adminKey, is_signer := false } }

def updAccsBadOwner : UpdateAccounts :=
  { updAccsEx with associated_token_account :=
      { tokenData := some { owner := pkOf 22, mint := mintKeyA } } }

def buyAccsBadOwner : BuyAccounts :=
  { buyAccsEx with old_nft_token_account :=
      { key := oldTokKey,
        tokenData := some { owner := pkOf 22, mint := mintKeyA } } }

def rEx2 : NFTRecord :=
  { hero_id := 1, content_uri := [107], key_nft := pkOf 21,
    last_price := 5, listed_price := 6 }

def repoTwo : List Nat := List.replicate 306 0

def repoTwoWritten : List Nat :=
  List.replicate 153 0 ++ encodeRecord rEx2 ++ List.replicate 99 0

/-- C1: evaluation of the buy path on a fully valid concrete scenario in
which every external call succeeds.  The instruction succeeds and its
complete external-effect trace is the token transfer, the metadata
retirement and the payment transfer, in that order: no delegate-approval
(re-delegation) operation is ever issued, because the approve invocation
is commented out in the source, contradicting the claimed five-step
sequence whose third step re-delegates the new holding to the program
authority. -/
theorem buy_executes_without_redelegation :
    process_buy_record envAll buyAccsEx buyArgsEx progIdEx
      = .ok (repoAfterBuy, opsBuyEx)
    ∧ opsBuyEx.countP (fun op => !isTokenTransfer op
        && !(match op with
             | ExtOp.metadataUpdate _ _ _ _ => true
             | _ => false)
        && !(match op with
             | ExtOp.solTransfer _ _ _ => true
             | _ => false)) = 0 := by
  constructor
  · decide
  · decide

/-- C2: evaluation of the add path on a valid concrete scenario.  The
instruction succeeds, the record is written to slot 0 and is readable
back, yet the external-call trace is empty: no delegate-grant request is
issued before (or after) the repository write, because the approve
invocation is commented out in the source. -/
theorem add_writes_record_without_delegate_grant :
    process_add_record addAccsEx addArgsEx progIdEx = .ok (repoWithR, [])
    ∧ get_nft_data_from_repository 0 mintKeyA repoWithR mintKeyA
        = .ok rEx := by
  constructor
  · decide
  · decide

/-- C3 counterexample: in a concrete successful buy, the single asset
transfer of the trace is authorized by the admin account through a plain
invocation (`signedByProgram = false`), whose authority signature must
come from a human signer of the outer transaction, not from the
program-derived address; and its source account is the designated send
token account, which differs from the previous holder token account
presented in the same instruction.  This refutes the claim that the
transfer is authorized by the program authority, never a human signer,
and moves the asset out of the previous holder token account. -/
theorem buy_transfer_not_program_signed_cex :
    procOps (process_buy_record envAll buyAccsEx buyArgsEx progIdEx)
      = [ExtOp.tokenTransfer sendTokKey recvTokKey adminKey 1 false,
         ExtOp.metadataUpdate mdKey adminKey [100] [110],
         ExtOp.solTransfer buyerKey prevKey 150]
    ∧ adminKey = buyAccsEx.admin_account.key
    ∧ sendTokKey ≠ buyAccsEx.old_nft_token_account.key := by
  refine ⟨by decide, by decide, by decide⟩

/-- C3 (amended): in every successful Buy, the trace contains exactly
one asset transfer; it moves exactly one unit from the designated send
token account to the designated receive (buyer) token account and is
authorized by the admin account through a plain, human-signed invocation
(`signedByProgram = false`), not by the program-derived authority. -/
theorem buy_transfer_characterization (env : Env) (accs : BuyAccounts)
    (args : BuyRecordArgs) (pid : Pubkey) (repo2 : List Nat)
    (ops : List ExtOp)
    (h : process_buy_record env accs args pid = .ok (repo2, ops)) :
    ops.head? = some (ExtOp.tokenTransfer
      accs.nft_token_account_to_send.key
      accs.nft_token_account_to_receive.key
      accs.admin_account.key 1 false)
    ∧ ops.countP isTokenTransfer = 1 := by
  obtain ⟨-, -, -, r, -, -, hops⟩ := process_buy_ok_inv _ _ _ _ _ _ h
  subst hops
  refine ⟨rfl, ?_⟩
  simp [List.countP, List.countP.go, isTokenTransfer]

/-- C3 witness: the amended characterization applied to the concrete
successful buy scenario. -/
theorem buy_transfer_characterization_witness :
    opsBuyEx.head? = some (ExtOp.tokenTransfer sendTokKey recvTokKey
      adminKey 1 false)
    ∧ opsBuyEx.countP isTokenTransfer = 1 :=
  buy_transfer_characterization envAll buyAccsEx buyArgsEx progIdEx
    repoAfterBuy opsBuyEx (by decide)

/-- C4: after every successful Buy over a byte-valued repository buffer
and a 32-byte new mint key, the record read back from the written slot
has `last_price` equal to the pre-buy `listed_price`, and its
`listed_price` equals the pre-buy `listed_price` (unchanged). -/
theorem buy_price_settlement (env : Env) (accs : BuyAccounts)
    (args : BuyRecordArgs) (pid : Pubkey) (repo2 : List Nat)
    (ops : List ExtOp)
    (hbytes : BytesWF accs.repository_account.dataBytes)
    (hkey : accs.new_nft_mint.key.length = 32)
    (h : process_buy_record env accs args pid = .ok (repo2, ops)) :
    ∃ r r2,
      get_nft_data_from_repository args.hero_id accs.old_nft_mint.key
        accs.repository_account.dataBytes accs.old_nft_mint.key = .ok r
      ∧ get_nft_data_from_repository r.hero_id accs.new_nft_mint.key
          repo2 accs.new_nft_mint.key = .ok r2
      ∧ r2.last_price = r.listed_price
      ∧ r2.listed_price = r.listed_price := by
  obtain ⟨-, -, -, r, hget, hsave, -⟩ := process_buy_ok_inv _ _ _ _ _ _ h
  have hwf := get_ok_wf _ _ _ _ _ hbytes hget
  have hwf2 : RecordWF
      { r with
          last_price := r.listed_price
          key_nft := accs.new_nft_mint.key } :=
    ⟨hwf.1, hkey, hwf.2.2.2, hwf.2.2.2⟩
  have hread := get_after_save _ _ _ hwf2 hsave
  exact ⟨r, _, hget, hread, rfl, rfl⟩

/-- C4 witness: the settlement property applied to a concrete successful
buy of the spec scenario record (last 100, listed 150): the read-back
record has last price 150 and listed price 150. -/
theorem buy_price_settlement_witness :
    BytesWF repoWithR
    ∧ newMintKey.length = 32
    ∧ ∃ r r2,
        get_nft_data_from_repository 0 mintKeyA repoWithR mintKeyA
          = .ok r
        ∧ get_nft_data_from_repository r.hero_id newMintKey repoAfterBuy
            newMintKey = .ok r2
        ∧ r2.last_price = r.listed_price
        ∧ r2.listed_price = r.listed_price :=
  ⟨by decide, by decide,
    buy_price_settlement envAll buyAccsEx buyArgsEx progIdEx repoAfterBuy
      opsBuyEx (by decide) (by decide) (by decide)⟩

/-- C5: a repository read never succeeds with a mismatched asset key:
whenever it returns a record, the stored key equals the supplied asset
key and the supplied mint account key, so a read supplying an asset key
that differs from the stored one always fails. -/
theorem read_with_mismatched_key_never_succeeds (hero_id : Nat)
    (key_nft : Pubkey) (repo : List Nat) (nft_account_key : Pubkey)
    (r : NFTRecord)
    (h : get_nft_data_from_repository hero_id key_nft repo
      nft_account_key = .ok r) :
    r.key_nft = key_nft ∧ r.key_nft = nft_account_key :=
  get_ok_key_eq hero_id key_nft repo nft_account_key r h

/-- C5 witness: the integrity property applied to a concrete successful
read. -/
theorem read_with_mismatched_key_never_succeeds_witness :
    rEx.key_nft = mintKeyA ∧ rEx.key_nft = mintKeyA :=
  read_with_mismatched_key_never_succeeds 0 mintKeyA repoWithR mintKeyA
    rEx (by decide)

/-- C6: on the reference-policy repository buffer of exactly
`MAX_SLOTS * NFT_RECORD_SIZE` bytes, a slot id at or past `MAX_SLOTS`
makes the raw write fail with the out-of-range slice error (and hence
write nothing), and makes each of the three instructions fail. -/
theorem slot_out_of_range_always_fails :
    (∀ r repo, MAX_SLOTS ≤ r.hero_id →
      repo.length = MAX_SLOTS * NFT_RECORD_SIZE →
      save_nft_data_to_repository r repo = .error .SliceOutOfRange)
    ∧ (∀ accs args pid, MAX_SLOTS ≤ args.hero_id →
        accs.repository_account.dataBytes.length
          = MAX_SLOTS * NFT_RECORD_SIZE →
        procOk (process_add_record accs args pid) = false)
    ∧ (∀ accs args pid, MAX_SLOTS ≤ args.hero_id →
        accs.repository_account.dataBytes.length
          = MAX_SLOTS * NFT_RECORD_SIZE →
        procOk (process_update_record accs args pid) = false)
    ∧ (∀ env accs args pid, MAX_SLOTS ≤ args.hero_id →
        accs.repository_account.dataBytes.length
          = MAX_SLOTS * NFT_RECORD_SIZE →
        procOk (process_buy_record env accs args pid) = false) := by
  refine ⟨fun r repo h1 h2 => save_oob r repo h1 h2, ?_, ?_, ?_⟩
  · intro accs args pid h1 h2
    cases hres : process_add_record accs args pid with
    | error e => simp [procOk, hres]
    | ok v =>
      obtain ⟨repo2, ops⟩ := v
      obtain ⟨-, -, hsave, -⟩ := process_add_ok_inv _ _ _ _ _ hres
      rw [save_oob _ _ h1 h2] at hsave
      cases hsave
  · intro accs args pid h1 h2
    cases hres : process_update_record accs args pid with
    | error e => simp [procOk, hres]
    | ok v =>
      obtain ⟨repo2, ops⟩ := v
      obtain ⟨-, -, -, r, hget, -⟩ := process_update_ok_inv _ _ _ _ _ hres
      rw [get_oob _ _ _ _ h1 h2] at hget
      cases hget
  · intro env accs args pid h1 h2
    cases hres : process_buy_record env accs args pid with
    | error e => simp [procOk, hres]
    | ok v =>
      obtain ⟨repo2, ops⟩ := v
      obtain ⟨-, -, -, r, hget, -⟩ :=
        process_buy_ok_inv _ _ _ _ _ _ hres
      rw [get_oob _ _ _ _ h1 h2] at hget
      cases hget

/-- C6 witness: the bound applied at slot id 20 on the 20-slot buffer,
for the raw write and all three instructions. -/
theorem slot_out_of_range_always_fails_witness :
    save_nft_data_to_repository rEx20 repoFull
      = .error .SliceOutOfRange
    ∧ procOk (process_add_record addAccsOob addArgsOob progIdEx) = false
    ∧ procOk (process_update_record updAccsOob updArgsOob progIdEx)
        = false
    ∧ procOk (process_buy_record envAll buyAccsOob buyArgsOob progIdEx)
        = false :=
  ⟨slot_out_of_range_always_fails.1 rEx20 repoFull (by decide)
      (by show repoFull.length = MAX_SLOTS * NFT_RECORD_SIZE
          simp only [repoFull, List.length_replicate]
          decide),
   slot_out_of_range_always_fails.2.1 addAccsOob addArgsOob progIdEx
      (by decide)
      (by show repoFull.length = MAX_SLOTS * NFT_RECORD_SIZE
          simp only [repoFull, List.length_replicate]
          decide),
   slot_out_of_range_always_fails.2.2.1 updAccsOob updArgsOob progIdEx
      (by decide)
      (by show repoFull.length = MAX_SLOTS * NFT_RECORD_SIZE
          simp only [repoFull, List.length_replicate]
          decide),
   slot_out_of_range_always_fails.2.2.2 envAll buyAccsOob buyArgsOob
      progIdEx (by decide)
      (by show repoFull.length = MAX_SLOTS * NFT_RECORD_SIZE
          simp only [repoFull, List.length_replicate]
          decide)⟩

/-- C7: every successful Update over a byte-valued repository buffer
changes only the listed price and the content uri of the record; the
slot id, the asset key and the last price of the read-back record are
identical to the pre-update record. -/
theorem update_changes_only_price_and_uri (accs : UpdateAccounts)
    (args : UpdateRecordArgs) (pid : Pubkey) (repo2 : List Nat)
    (ops : List ExtOp)
    (hbytes : BytesWF accs.repository_account.dataBytes)
    (hprice : args.new_price < 18446744073709551616)
    (h : process_update_record accs args pid = .ok (repo2, ops)) :
    ∃ r r2,
      get_nft_data_from_repository args.hero_id accs.nft_account.key
        accs.repository_account.dataBytes accs.nft_account.key = .ok r
      ∧ get_nft_data_from_repository r.hero_id accs.nft_account.key
          repo2 accs.nft_account.key = .ok r2
      ∧ r2.hero_id = r.hero_id
      ∧ r2.key_nft = r.key_nft
      ∧ r2.last_price = r.last_price
      ∧ r2.listed_price = args.new_price
      ∧ r2.content_uri = args.content_uri := by
  obtain ⟨-, -, -, r, hget, hsave, -⟩ :=
    process_update_ok_inv _ _ _ _ _ h
  have hwf := get_ok_wf _ _ _ _ _ hbytes hget
  have hkeys := get_ok_key_eq _ _ _ _ _ hget
  have hwf2 : RecordWF
      { r with
          listed_price := args.new_price
          content_uri := args.content_uri } :=
    ⟨hwf.1, hwf.2.1, hwf.2.2.1, hprice⟩
  have hread := get_after_save _ _ _ hwf2 hsave
  have hread2 : get_nft_data_from_repository r.hero_id r.key_nft repo2
      r.key_nft = .ok
        { r with
            listed_price := args.new_price
            content_uri := args.content_uri } := hread
  rw [hkeys.2] at hread2
  exact ⟨r, _, hget, hread2, rfl, hkeys.2.symm, rfl, rfl, rfl⟩

/-- C7 witness: the frame property applied to a concrete successful
update (new price 200, new uri `[106]`): slot id, key and last price of
the read-back record match the pre-update record. -/
theorem update_changes_only_price_and_uri_witness :
    BytesWF repoWithR
    ∧ ∃ r r2,
        get_nft_data_from_repository 0 mintKeyA repoWithR mintKeyA
          = .ok r
        ∧ get_nft_data_from_repository r.hero_id mintKeyA repoAfterUpd
            mintKeyA = .ok r2
        ∧ r2.hero_id = r.hero_id
        ∧ r2.key_nft = r.key_nft
        ∧ r2.last_price = r.last_price
        ∧ r2.listed_price = 200
        ∧ r2.content_uri = [106] :=
  ⟨by decide,
    update_changes_only_price_and_uri updAccsEx updArgsEx progIdEx
      repoAfterUpd [] (by decide) (by decide) (by decide)⟩

/-- C8: for every record of the Rust value range with a valid slot id,
writing it to the repository and reading the slot back with the record
own asset key returns the written record unchanged. -/
theorem write_read_roundtrip (r : NFTRecord) (repo repo2 : List Nat)
    (hWF : RecordWF r) (_hslot : r.hero_id < MAX_SLOTS)
    (h : save_nft_data_to_repository r repo = .ok repo2) :
    get_nft_data_from_repository r.hero_id r.key_nft repo2 r.key_nft
      = .ok r :=
  get_after_save r repo repo2 hWF h

/-- C8 witness: the round-trip applied to a concrete record written at
slot 1 of a fresh two-slot buffer. -/
theorem write_read_roundtrip_witness :
    RecordWF rEx2
    ∧ get_nft_data_from_repository 1 (pkOf 21) repoTwoWritten (pkOf 21)
        = .ok rEx2 :=
  ⟨by decide,
    write_read_roundtrip rEx2 repoTwo repoTwoWritten (by decide)
      (by decide) (by decide)⟩

/-- C9: AddRecord fails with the missing-signature error whenever the
caller is not a signer, and Update and Buy never succeed when the holder
reported by the token-holding record differs from the presented holder
(the setter for Update, the previous owner for Buy). -/
theorem authorization_checks :
    (∀ accs args pid, (accs : AddAccounts).adder_account.is_signer
        = false →
      process_add_record accs args pid
        = .error (.MissingRequiredSignature, []))
    ∧ (∀ accs args pid td,
        (accs : UpdateAccounts).associated_token_account.tokenData
          = some td →
        td.owner ≠ accs.setter_account.key →
        procOk (process_update_record accs args pid) = false)
    ∧ (∀ env accs args pid td,
        (accs : BuyAccounts).old_nft_token_account.tokenData
          = some td →
        td.owner ≠ accs.prev_owner_account.key →
        procOk (process_buy_record env accs args pid) = false) := by
  refine ⟨?_, ?_, ?_⟩
  · intro accs args pid hsig
    unfold process_add_record
    rw [if_pos (by simp [hsig])]
  · intro accs args pid td htd hne
    cases hres : process_update_record accs args pid with
    | error e => simp [procOk, hres]
    | ok v =>
      exfalso
      obtain ⟨repo2, ops⟩ := v
      obtain ⟨-, -, ⟨td2, htd2, howner, -⟩, -⟩ :=
        process_update_ok_inv _ _ _ _ _ hres
      rw [htd] at htd2
      injection htd2 with he
      subst he
      exact hne howner
  · intro env accs args pid td htd hne
    cases hres : process_buy_record env accs args pid with
    | error e => simp [procOk, hres]
    | ok v =>
      exfalso
      obtain ⟨repo2, ops⟩ := v
      obtain ⟨-, -, ⟨td2, htd2, howner, -⟩, -⟩ :=
        process_buy_ok_inv _ _ _ _ _ _ hres
      rw [htd] at htd2
      injection htd2 with he
      subst he
      exact hne howner

/-- C9 witness: the authorization checks applied to a non-signing adder,
an update whose token record reports a different holder than the setter,
and a buy whose token record reports a different holder than the
presented previous owner. -/
theorem authorization_checks_witness :
    process_add_record addAccsNoSig addArgsEx progIdEx
      = .error (.MissingRequiredSignature, [])
    ∧ procOk (process_update_record updAccsBadOwner updArgsEx progIdEx)
        = false
    ∧ procOk (process_buy_record envAll buyAccsBadOwner buyArgsEx
        progIdEx) = false :=
  ⟨authorization_checks.1 addAccsNoSig addArgsEx progIdEx rfl,
   authorization_checks.2.1 updAccsBadOwner updArgsEx progIdEx
     { owner := pkOf 22, mint := mintKeyA } rfl (by decide),
   authorization_checks.2.2 envAll buyAccsBadOwner buyArgsEx progIdEx
     { owner := pkOf 22, mint := mintKeyA } rfl (by decide)⟩

/-- C10: two Update instructions identical except for the `key_nft`
field of the argument structure produce identical results on identical
accounts (the field is never read), and whenever an Update succeeds, the
repository read keyed by the mint account of the account list succeeds,
showing the asset-key comparison is performed against that account. -/
theorem update_independent_of_args_key_nft :
    (∀ accs pid hid k1 k2 p u,
      process_update_record accs
        { hero_id := hid, key_nft := k1, new_price := p,
          content_uri := u } pid
        = process_update_record accs
          { hero_id := hid, key_nft := k2, new_price := p,
            content_uri := u } pid)
    ∧ (∀ accs args pid repo2 ops,
        process_update_record accs args pid = .ok (repo2, ops) →
        getOk (get_nft_data_from_repository args.hero_id
          accs.nft_account.key accs.repository_account.dataBytes
          accs.nft_account.key) = true) := by
  refine ⟨?_, ?_⟩
  · intro accs pid hid k1 k2 p u
    rfl
  · intro accs args pid repo2 ops h
    obtain ⟨-, -, -, r, hget, -⟩ := process_update_ok_inv _ _ _ _ _ h
    rw [hget]
    rfl

/-- C10 witness: two concrete Update argument structures differing only
in `key_nft` give the same result, and a concrete successful update has
a succeeding mint-keyed repository read. -/
theorem update_independent_of_args_key_nft_witness :
    process_update_record updAccsEx
      { hero_id := 0, key_nft := pkOf 23, new_price := 140,
        content_uri := [106] } progIdEx
      = process_update_record updAccsEx
        { hero_id := 0, key_nft := pkOf 24, new_price := 140,
          content_uri := [106] } progIdEx
    ∧ getOk (get_nft_data_from_repository 0 mintKeyA repoWithR
        mintKeyA) = true :=
  ⟨update_independent_of_args_key_nft.1 updAccsEx progIdEx 0 (pkOf 23)
      (pkOf 24) 140 [106],
   update_independent_of_args_key_nft.2 updAccsEx updArgsEx progIdEx
      repoAfterUpd [] (by decide)⟩

end Hero
